import Mathlib

/- Verification development for the trade-tariff lookup front end.

   The embedded code:
   * the retry-with-fallback summarizer summarizeMatches / attemptSummarization
     of the country LookupBox (ResultsPage.jsx, lines 620-740),
   * the doLookup handlers of the country LookupBox (ResultsPage.jsx, lines
     565-618) and of the basic LookupBox (ResultsPage.jsx, lines 116-147),
   * toggleExportLocation of App.jsx (lines 101-139) with the EU member list,
   * getCountryKeyPath of ResultsPage.jsx (lines 271-315).

   The external HTTP services are modelled as oracles: a lookup call yields a
   LookupResp and the i-th /api/bedrock call yields responses i.  The prompt
   text sent to /api/bedrock is irrelevant to the control flow and is not
   modelled; everything that feeds state or branching is. -/

/-! ### JS record values -/

/-- A primitive value of a match record (string / number / boolean / null). -/
inductive RecVal where
  | str (s : String)
  | num (n : Int)
  | boolVal (b : Bool)
  | nullVal

/-- A record attached to a match: a JS object given as string-keyed fields in
    insertion order, or a primitive value (for which the object-only code
    paths are skipped). -/
inductive RecordVal where
  | obj (fields : List (String × RecVal))
  | prim (v : RecVal)

/-- One element of the `matches` array returned by `/api/lookup`; `record`
    may be missing (`none` models a JS undefined or null record). -/
structure MatchRec where
  record : Option RecordVal

/-- JS template interpolation of a primitive value. -/
def recValToString : RecVal → String
  | .str s => s
  | .num n => toString n
  | .boolVal b => if b then "true" else "false"
  | .nullVal => "null"

/-! ### JS String.prototype.includes -/

/-- Whether the first list is an initial segment of the second. -/
def listStart : List Char → List Char → Bool
  | [], _ => true
  | _ :: _, [] => false
  | p :: ps, c :: cs => p == c && listStart ps cs

/-- Whether `pat` occurs as a contiguous run inside the second list. -/
def listIncl (pat : List Char) : List Char → Bool
  | [] => pat.isEmpty
  | c :: cs => listStart pat (c :: cs) || listIncl pat cs

/-- JS `s.includes(pat)`. -/
def strIncludes (s pat : String) : Bool := listIncl pat.toList s.toList

/-- JS `s.toLowerCase()` (character-wise lowering; all keys and field names
    in play are ASCII). -/
def strToLower (s : String) : String := ⟨s.data.map Char.toLower⟩

/-- The throttling detector used on an error message, from
    ResultsPage.jsx line 680 (also reused on line 710):
    `errorMsg.includes('ThrottlingException') ||
     errorMsg.includes('Too many requests') || errorMsg.includes('rate limit')`. -/
def isThrottleMsg (s : String) : Bool :=
  strIncludes s "ThrottlingException" || strIncludes s "Too many requests" ||
    strIncludes s "rate limit"

/-! ### The /api/bedrock oracle and the retry loop -/

/-- One response of the `/api/bedrock` endpoint as seen by the client:
    HTTP success carrying the result string, an HTTP error whose JSON body
    may carry a `detail` string, or a rejected fetch / JSON parse whose
    Error has message `msg`. -/
inductive BedrockResp where
  | ok (result : String)
  | httpErr (detail : Option String)
  | netErr (msg : String)

/-- The try-block of one attempt of `attemptSummarization`
    (ResultsPage.jsx lines 663-687): a non-ok response whose message passes
    the throttling detector is re-thrown as the marker error 'THROTTLE',
    any other non-ok response is thrown with `body.detail ||
    'Summarization failed'`, and a network error propagates its own message. -/
def callOutcome (responses : Nat → BedrockResp) (attempt : Nat) : Except String String :=
  match responses attempt with
  | .ok r => .ok r
  | .httpErr detail =>
    let errorMsg := detail.getD "Summarization failed"
    if isThrottleMsg errorMsg then .error "THROTTLE" else .error errorMsg
  | .netErr msg => .error msg

/-- Result of running the attempt loop: the final outcome, the number of
    `/api/bedrock` calls issued, and the backoff waits (in ms) performed
    between consecutive attempts, in order. -/
structure AttemptRun where
  outcome : Except String String
  calls : Nat
  waits : List Nat

/-- Function `attemptSummarization` of ResultsPage.jsx lines 625-701.  The JS
    function recurses as `attemptSummarization(attempt + 1)` while the thrown
    error is the marker 'THROTTLE' and `attempt < retries`; the recursion is
    totalized here by a fuel argument, always invoked with fuel
    `retries + 1 - attempt` or more so the fuel-out branch is unreachable
    (lemma `attemptSummarization_fuel_irrelevant` below). -/
def attemptSummarization (responses : Nat → BedrockResp) (retries : Nat) :
    Nat → Nat → AttemptRun
  | 0, _ => ⟨.error "Summarization failed", 0, []⟩
  | fuel + 1, attempt =>
    match callOutcome responses attempt with
    | .ok r => ⟨.ok r, 1, []⟩
    | .error e =>
      if e = "THROTTLE" ∧ attempt < retries then
        -- Exponential backoff, max 8s (line 693)
        let delay := min (1000 * 2 ^ attempt) 8000
        let rest := attemptSummarization responses retries fuel (attempt + 1)
        ⟨rest.outcome, rest.calls + 1, delay :: rest.waits⟩
      else ⟨.error e, 1, []⟩

/-! ### summarizeMatches (ResultsPage.jsx lines 620-740) -/

/-- The three summary-related state hooks of the LookupBox component. -/
structure SummaryState where
  summary : Option String
  summaryError : Option String
  summaryLoading : Bool

/-- Final component state of one `summarizeMatches` invocation, together
    with the `/api/bedrock` call count and the backoff waits of its run. -/
structure SummaryOutcome where
  state : SummaryState
  calls : Nat
  waits : List Nat

/-- The `keyFields` list of the throttle fallback (ResultsPage.jsx line 716). -/
def keyFields : List String :=
  ["HS_Code", "hs_code", "description", "rate", "duty_rate", "product",
   "tariff_rate", "country"]

/-- The `relevantData` extraction of the throttle fallback (ResultsPage.jsx lines 717-724):
    the fields of the top record whose lower-cased key contains one of the
    lower-cased `keyFields`, first five kept, rendered `k: v` and joined
    with a comma. -/
def relevantData (topMatch : List (String × RecVal)) : String :=
  String.intercalate ", "
    (((topMatch.filter fun kv =>
        keyFields.any fun f => strIncludes (strToLower kv.1) (strToLower f)).take 5).map
      fun kv => kv.1 ++ ": " ++ recValToString kv.2)

/-- The manual fallback summary built on the throttling give-up path
    (ResultsPage.jsx lines 713-729): extracted from `matches[0]?.record`
    when that record is an object and the extraction is nonempty. -/
def manualThrottleSummary (matchList : List MatchRec) (country : Option String) :
    Option String :=
  match matchList.head? with
  | some mr =>
    match mr.record with
    | some (.obj fields) =>
      let rd := relevantData fields
      if rd = "" then none
      else
        some ("KEY FINDINGS: " ++ rd ++
          ". This represents the most relevant tariff information found for your product" ++
          (match country with
           | some c => " when exporting to " ++ c
           | none => "") ++ ".")
    | _ => none
  | none => none

/-- The fallback summary of the non-throttling give-up path
    (ResultsPage.jsx lines 732-735): a record count, no field extraction. -/
def basicFallbackSummary (matchList : List MatchRec) (country : Option String) :
    Option String :=
  if matchList.length > 0 then
    some ("Found " ++ toString matchList.length ++
      " relevant tariff record(s) for your product" ++
      (match country with
       | some c => " in " ++ c
       | none => "") ++
      ". Review the detailed data below for specific rates and requirements.")
  else none

/-- Function `summarizeMatches(matches, retries = 2)` of ResultsPage.jsx lines
    620-740, as a function of the match list, the retry budget, the
    `/api/bedrock` oracle and the `country` prop, returning the final
    summary state together with the call count and backoff waits. -/
def summarizeMatches (matchList : List MatchRec) (retries : Nat)
    (responses : Nat → BedrockResp) (country : Option String) : SummaryOutcome :=
  let run := attemptSummarization responses retries (retries + 1) 0
  match run.outcome with
  | .ok result => ⟨⟨some result, none, false⟩, run.calls, run.waits⟩
  | .error errorMsg =>
    if isThrottleMsg errorMsg ∨ errorMsg = "THROTTLE" then
      ⟨⟨manualThrottleSummary matchList country,
        some "AI analysis temporarily busy. Showing raw results instead.", false⟩,
       run.calls, run.waits⟩
    else
      ⟨⟨basicFallbackSummary matchList country,
        some ("Analysis failed: " ++ errorMsg), false⟩,
       run.calls, run.waits⟩

/-! ### The lookup flows -/

/-- One response of the `/api/lookup` endpoint. -/
inductive LookupResp where
  | ok (matchList : List MatchRec)
  | httpErr (status : Nat) (detail : Option String)
  | netErr (msg : String)

/-- The state hooks of a LookupBox after a lookup (and the summarization it
    may start) have settled; `bedrockCalls` counts the `/api/bedrock`
    requests issued by the flow. -/
structure LookupState where
  results : Option (List MatchRec)
  error : Option String
  summary : Option String
  summaryError : Option String
  loading : Bool
  bedrockCalls : Nat

/-- Function `doLookup` of the country LookupBox (ResultsPage.jsx lines 565-618):
    non-ok responses and network errors all set empty results and clear the
    summary state without ever setting `error`; on success, summarization is
    started only when the match list is nonempty. -/
def doLookup (resp : LookupResp) (bedrock : Nat → BedrockResp)
    (country : Option String) : LookupState :=
  match resp with
  | .ok matchList =>
    if matchList.length > 0 then
      let s := summarizeMatches matchList 2 bedrock country
      ⟨some matchList, none, s.state.summary, s.state.summaryError, false, s.calls⟩
    else ⟨some matchList, none, none, none, false, 0⟩
  | .httpErr _ _ => ⟨some [], none, none, none, false, 0⟩
  | .netErr _ => ⟨some [], none, none, none, false, 0⟩

/-- Function `summarizeMatches` of the basic LookupBox (ResultsPage.jsx lines
    149-189): a single call, no retry. -/
def summarizeMatchesBasic (resp : BedrockResp) : SummaryState :=
  match resp with
  | .ok r => ⟨some r, none, false⟩
  | .httpErr d => ⟨none, some (d.getD "Summarization failed"), false⟩
  | .netErr m => ⟨none, some m, false⟩

/-- Function `doLookup` of the basic LookupBox (ResultsPage.jsx lines 116-147): any
    non-ok response is thrown as `Error(body.detail || 'Lookup failed')` and
    caught by `setError`, leaving `results` null. -/
def doLookupBasic (resp : LookupResp) (bedrock : Nat → BedrockResp) : LookupState :=
  match resp with
  | .ok matchList =>
    if matchList.length > 0 then
      let s := summarizeMatchesBasic (bedrock 0)
      ⟨some matchList, none, s.summary, s.summaryError, false, 1⟩
    else ⟨some matchList, none, none, none, false, 0⟩
  | .httpErr _ d => ⟨none, some (d.getD "Lookup failed"), none, none, false, 0⟩
  | .netErr m => ⟨none, some m, none, none, false, 0⟩

/-- The no-matches block of the country LookupBox markup (ResultsPage.jsx
    lines 925-930): rendered iff `results && results.length === 0 && !loading`. -/
def showsNoMatches (st : LookupState) : Prop :=
  st.results = some [] ∧ st.loading = false

/-- The error banner of the basic LookupBox markup (ResultsPage.jsx line
    242): rendered iff `error` is set. -/
def showsErrorBanner (st : LookupState) : Prop :=
  st.error ≠ none

/-! ### toggleExportLocation (App.jsx lines 101-139) -/

/-- The `europeanUnionMembers` list of App.jsx lines 63-91. -/
def euMembers : List String :=
  ["Austria", "Belgium", "Bulgaria", "Croatia", "Cyprus", "Czech Republic",
   "Denmark", "Estonia", "Finland", "France", "Germany", "Greece", "Hungary",
   "Ireland", "Italy", "Latvia", "Lithuania", "Luxembourg", "Malta",
   "Netherlands", "Poland", "Portugal", "Romania", "Slovakia", "Slovenia",
   "Spain", "Sweden"]

/-- The umbrella label of the EU bloc in the export-location list. -/
def euLabel : String := "European Union"

/-- The plain add/delete step of `toggleExportLocation` on a single country
    (App.jsx lines 117-121): `next` after the has/delete/add block. -/
def toggleOne (prev : Finset String) (country : String) : Finset String :=
  if country ∈ prev then prev.erase country else insert country prev

/-- Function `toggleExportLocation` of App.jsx lines 101-139, on the set of selected
    export locations (the component keeps a JS Set; the claims about it
    ignore order, so the state is a `Finset`). -/
def toggleExportLocation (prev : Finset String) (country : String) : Finset String :=
  if country = euLabel then
    if (∀ m ∈ euMembers, m ∈ prev) ∧ euLabel ∈ prev then
      (euMembers.foldl (fun s m => s.erase m) prev).erase euLabel
    else
      insert euLabel (euMembers.foldl (fun s m => insert m s) prev)
  else if country ∈ euMembers then
    if ∀ m ∈ euMembers, m ∈ toggleOne prev country then
      insert euLabel (toggleOne prev country)
    else (toggleOne prev country).erase euLabel
  else toggleOne prev country

/-- The umbrella-label invariant: the label 'European Union' is selected
    exactly when every EU member is.  It holds in the initial (empty)
    selection and is preserved by every toggle, so it holds in every
    selection reachable by toggle operations. -/
def euSelectionInvariant (s : Finset String) : Prop :=
  euLabel ∈ s ↔ ∀ m ∈ euMembers, m ∈ s

/-! ### getCountryKeyPath (ResultsPage.jsx lines 271-315) -/

/-- The `countryCodeMap` of getCountryKeyPath, as an association list in source
    order. -/
def countryCodeMap : List (String × String) :=
  [("Australia", "AU"), ("Belize", "BZ"), ("Ghana", "GH"), ("Hong Kong", "HK"),
   ("Malaysia", "MY"), ("Singapore", "SG"), ("South Africa", "ZA"),
   ("Taiwan", "TW"), ("United States", "US"), ("European Union", "EU"),
   ("Austria", "EU"), ("Belgium", "EU"), ("Bulgaria", "EU"), ("Croatia", "EU"),
   ("Cyprus", "EU"), ("Czech Republic", "EU"), ("Denmark", "EU"),
   ("Estonia", "EU"), ("Finland", "EU"), ("France", "EU"), ("Germany", "EU"),
   ("Greece", "EU"), ("Hungary", "EU"), ("Ireland", "EU"), ("Italy", "EU"),
   ("Latvia", "EU"), ("Lithuania", "EU"), ("Luxembourg", "EU"), ("Malta", "EU"),
   ("Netherlands", "EU"), ("Poland", "EU"), ("Portugal", "EU"),
   ("Romania", "EU"), ("Slovakia", "EU"), ("Slovenia", "EU"), ("Spain", "EU"),
   ("Sweden", "EU")]

/-- The properties a JS object literal inherits from Object.prototype,
    paired with the template-interpolation of each inherited value (V8
    prints built-in functions as below; the wording after the function name
    is engine-dependent, and no theorem depends on it, only on these
    inherited values being truthy, i.e. present). -/
def objectProtoMembers : List (String × String) :=
  [("constructor", "function Object() \x7b [native code] \x7d"),
   ("hasOwnProperty", "function hasOwnProperty() \x7b [native code] \x7d"),
   ("isPrototypeOf", "function isPrototypeOf() \x7b [native code] \x7d"),
   ("propertyIsEnumerable", "function propertyIsEnumerable() \x7b [native code] \x7d"),
   ("toLocaleString", "function toLocaleString() \x7b [native code] \x7d"),
   ("toString", "function toString() \x7b [native code] \x7d"),
   ("valueOf", "function valueOf() \x7b [native code] \x7d"),
   ("__defineGetter__", "function __defineGetter__() \x7b [native code] \x7d"),
   ("__defineSetter__", "function __defineSetter__() \x7b [native code] \x7d"),
   ("__lookupGetter__", "function __lookupGetter__() \x7b [native code] \x7d"),
   ("__lookupSetter__", "function __lookupSetter__() \x7b [native code] \x7d"),
   ("__proto__", "[object Object]")]

/-- The inherited property names of Object.prototype. -/
def objectProtoNames : List String := objectProtoMembers.map Prod.fst

/-- The JS property read `countryCodeMap[country]`: an own key yields its
    code; a name the object literal inherits from Object.prototype yields
    that (truthy) function or object; any other name yields undefined. -/
def countryCodeMapAccess (country : String) : Option String :=
  match countryCodeMap.lookup country with
  | some code => some code
  | none => objectProtoMembers.lookup country

/-- Function `getCountryKeyPath` of ResultsPage.jsx lines 271-315:
    `const code = countryCodeMap[country] || 'US'` followed by the template
    path.  The property read goes through the prototype chain, and every
    value reachable that way (the own codes and the inherited
    Object.prototype members) is truthy, so the `|| 'US'` fallback fires
    exactly when the read is undefined. -/
def getCountryKeyPath (country : String) : String :=
  let code := (countryCodeMapAccess country).getD "US"
  "trade-data/normal/" ++ code ++ "/Oct15.2025.jsonl"

/-- A `/api/bedrock` response that the summarizer classifies as throttling:
    an HTTP error whose detail passes the throttling detector. -/
def IsThrottleHttp (r : BedrockResp) : Prop :=
  ∃ d, r = .httpErr (some d) ∧ isThrottleMsg d = true

/-! ## Lemmas about the retry loop -/

/-- A call classified as throttling is thrown as the marker 'THROTTLE'. -/
theorem callOutcome_throttle (responses : Nat → BedrockResp) (i : Nat)
    (h : IsThrottleHttp (responses i)) :
    callOutcome responses i = .error "THROTTLE" := by
  obtain ⟨d, hd, ht⟩ := h
  simp [callOutcome, hd, ht]

/-- A successful call ends the loop with one call and no wait. -/
theorem attemptSummarization_ok (responses : Nat → BedrockResp)
    (retries fuel attempt : Nat) (r : String)
    (he : callOutcome responses attempt = .ok r) :
    attemptSummarization responses retries (fuel + 1) attempt = ⟨.ok r, 1, []⟩ := by
  simp only [attemptSummarization, he]

/-- A 'THROTTLE' failure with retries left waits the backoff delay and
    recurses on the next attempt. -/
theorem attemptSummarization_retry (responses : Nat → BedrockResp)
    (retries fuel attempt : Nat)
    (he : callOutcome responses attempt = .error "THROTTLE")
    (hlt : attempt < retries) :
    attemptSummarization responses retries (fuel + 1) attempt =
      ⟨(attemptSummarization responses retries fuel (attempt + 1)).outcome,
       (attemptSummarization responses retries fuel (attempt + 1)).calls + 1,
       min (1000 * 2 ^ attempt) 8000 ::
         (attemptSummarization responses retries fuel (attempt + 1)).waits⟩ := by
  simp only [attemptSummarization, he]
  simp [hlt]

/-- Any other failure is rethrown after a single call. -/
theorem attemptSummarization_stop (responses : Nat → BedrockResp)
    (retries fuel attempt : Nat) (e : String)
    (he : callOutcome responses attempt = .error e)
    (hne : ¬(e = "THROTTLE" ∧ attempt < retries)) :
    attemptSummarization responses retries (fuel + 1) attempt = ⟨.error e, 1, []⟩ := by
  simp only [attemptSummarization, he]
  rw [if_neg hne]

/-- The fuel argument is irrelevant as long as it exceeds the number of
    retries still allowed, so invoking the loop with fuel `retries + 1`
    computes the JS recursion exactly. -/
theorem attemptSummarization_fuel_irrelevant (responses : Nat → BedrockResp)
    (retries : Nat) :
    ∀ f₁ f₂ attempt, retries - attempt < f₁ → retries - attempt < f₂ →
      attemptSummarization responses retries f₁ attempt =
        attemptSummarization responses retries f₂ attempt := by
  intro f₁
  induction f₁ with
  | zero => intro f₂ attempt h1 h2; omega
  | succ f ih =>
    intro f₂ attempt h1 h2
    cases f₂ with
    | zero => omega
    | succ g =>
      cases hco : callOutcome responses attempt with
      | ok r =>
        rw [attemptSummarization_ok responses retries f attempt r hco,
            attemptSummarization_ok responses retries g attempt r hco]
      | error e =>
        by_cases hc : e = "THROTTLE" ∧ attempt < retries
        · obtain ⟨he, hlt⟩ := hc
          subst he
          rw [attemptSummarization_retry responses retries f attempt hco hlt,
              attemptSummarization_retry responses retries g attempt hco hlt,
              ih g (attempt + 1) (by omega) (by omega)]
        · rw [attemptSummarization_stop responses retries f attempt e hco hc,
              attemptSummarization_stop responses retries g attempt e hco hc]

/-- When every `/api/bedrock` response is a throttling error, the default
    run (retries = 2) makes three calls, waits 1000 ms then 2000 ms, and
    gives up with the marker error. -/
theorem throttleRun_eq (responses : Nat → BedrockResp)
    (h : ∀ i, IsThrottleHttp (responses i)) :
    attemptSummarization responses 2 (2 + 1) 0 =
      ⟨.error "THROTTLE", 3, [1000, 2000]⟩ := by
  have c0 := callOutcome_throttle responses 0 (h 0)
  have c1 := callOutcome_throttle responses 1 (h 1)
  have c2 := callOutcome_throttle responses 2 (h 2)
  have h2 : attemptSummarization responses 2 (0 + 1) 2 = ⟨.error "THROTTLE", 1, []⟩ :=
    attemptSummarization_stop responses 2 0 2 "THROTTLE" c2 (by omega)
  have h1 := attemptSummarization_retry responses 2 (0 + 1) 1 c1 (by omega)
  norm_num at h1 h2
  rw [h2] at h1
  norm_num at h1
  have h0 := attemptSummarization_retry responses 2 (1 + 1) 0 c0 (by omega)
  norm_num at h0
  rw [h1] at h0
  norm_num at h0
  norm_num
  exact h0

/-- A first failure that is not the 'THROTTLE' marker stops after one call,
    for any retry budget. -/
theorem nonthrottleRun_eq (responses : Nat → BedrockResp) (retries : Nat)
    (e : String) (he : callOutcome responses 0 = .error e)
    (hne : e ≠ "THROTTLE") :
    attemptSummarization responses retries (retries + 1) 0 = ⟨.error e, 1, []⟩ :=
  attemptSummarization_stop responses retries retries 0 e he (fun hc => hne hc.1)

/-- The j-th backoff wait of a run starting at `attempt` is the exponential
    backoff of attempt `attempt + j`, capped at 8000 ms. -/
theorem attemptSummarization_waits (responses : Nat → BedrockResp) (retries : Nat) :
    ∀ fuel attempt j,
      j < (attemptSummarization responses retries fuel attempt).waits.length →
      (attemptSummarization responses retries fuel attempt).waits.get? j =
        some (min (1000 * 2 ^ (attempt + j)) 8000) := by
  intro fuel
  induction fuel with
  | zero => intro attempt j h; simp [attemptSummarization] at h
  | succ f ih =>
    intro attempt j h
    cases hco : callOutcome responses attempt with
    | ok r =>
      rw [attemptSummarization_ok responses retries f attempt r hco] at h
      simp at h
    | error e =>
      by_cases hc : e = "THROTTLE" ∧ attempt < retries
      · obtain ⟨he, hlt⟩ := hc
        subst he
        rw [attemptSummarization_retry responses retries f attempt hco hlt] at h ⊢
        cases j with
        | zero => simp
        | succ j =>
          simp only [List.length_cons, Nat.add_lt_add_iff_right] at h
          simp only [List.get?_cons_succ]
          rw [show attempt + (j + 1) = attempt + 1 + j from by omega]
          exact ih (attempt + 1) j h
      · rw [attemptSummarization_stop responses retries f attempt e hco hc] at h
        simp at h

/-- The waits of a `summarizeMatches` run are those of its attempt loop. -/
theorem summarizeMatches_waits_eq (matchList : List MatchRec) (retries : Nat)
    (responses : Nat → BedrockResp) (country : Option String) :
    (summarizeMatches matchList retries responses country).waits =
      (attemptSummarization responses retries (retries + 1) 0).waits := by
  simp only [summarizeMatches]
  split
  · rfl
  · split <;> rfl

/-! ## Lemmas about the export-location toggle -/

/-- Folding `insert` over a list is union with its finset of elements. -/
theorem foldl_insert_toFinset (l : List String) (s : Finset String) :
    l.foldl (fun t m => insert m t) s = s ∪ l.toFinset := by
  induction l generalizing s with
  | nil => simp
  | cons a l ih =>
    simp only [List.foldl_cons, ih, List.toFinset_cons]
    ext x
    simp only [Finset.mem_union, Finset.mem_insert, List.mem_toFinset]
    tauto

/-- Folding `erase` over a list is difference with its finset of elements. -/
theorem foldl_erase_toFinset (l : List String) (s : Finset String) :
    l.foldl (fun t m => t.erase m) s = s \ l.toFinset := by
  induction l generalizing s with
  | nil => simp
  | cons a l ih =>
    simp only [List.foldl_cons, ih, List.toFinset_cons]
    ext x
    simp only [Finset.mem_sdiff, Finset.mem_erase, Finset.mem_insert,
      List.mem_toFinset]
    tauto

/-- Toggling an already-selected EU member erases it and the umbrella label. -/
theorem toggle_member_mem {s : Finset String} {c : String}
    (hcEU : c ∈ euMembers) (hc : c ≠ euLabel) (hcs : c ∈ s) :
    toggleExportLocation s c = (s.erase c).erase euLabel := by
  have hnext : toggleOne s c = s.erase c := by simp [toggleOne, hcs]
  have hall : ¬ ∀ m ∈ euMembers, m ∈ toggleOne s c := by
    intro hall
    exact Finset.not_mem_erase c s (hnext ▸ hall c hcEU)
  unfold toggleExportLocation
  rw [if_neg hc, if_pos hcEU, if_neg hall, hnext]

/-- Toggling an unselected EU member whose addition completes the bloc adds
    it together with the umbrella label. -/
theorem toggle_member_notmem_all {s : Finset String} {c : String}
    (hcEU : c ∈ euMembers) (hc : c ≠ euLabel) (hcs : c ∉ s)
    (hall : ∀ m ∈ euMembers, m ∈ insert c s) :
    toggleExportLocation s c = insert euLabel (insert c s) := by
  have hnext : toggleOne s c = insert c s := by simp [toggleOne, hcs]
  unfold toggleExportLocation
  rw [if_neg hc, if_pos hcEU, hnext, if_pos hall]

/-- Toggling an unselected EU member that leaves the bloc incomplete adds it
    and erases the umbrella label. -/
theorem toggle_member_notmem_nall {s : Finset String} {c : String}
    (hcEU : c ∈ euMembers) (hc : c ≠ euLabel) (hcs : c ∉ s)
    (hall : ¬ ∀ m ∈ euMembers, m ∈ insert c s) :
    toggleExportLocation s c = (insert c s).erase euLabel := by
  have hnext : toggleOne s c = insert c s := by simp [toggleOne, hcs]
  unfold toggleExportLocation
  rw [if_neg hc, if_pos hcEU, hnext, if_neg hall]

/-- Toggling a country outside the bloc and distinct from the umbrella label
    is the plain add/delete step. -/
theorem toggle_nonmember {s : Finset String} {c : String}
    (hc : c ≠ euLabel) (hcEU : c ∉ euMembers) :
    toggleExportLocation s c = toggleOne s c := by
  unfold toggleExportLocation
  rw [if_neg hc, if_neg hcEU]

/-- The empty selection satisfies the umbrella-label invariant. -/
theorem euInv_empty : euSelectionInvariant ∅ := by
  unfold euSelectionInvariant
  decide

/-- Every toggle preserves the umbrella-label invariant, so the invariant
    holds in every selection reachable from the empty one. -/
theorem euInv_toggle {s : Finset String} (c : String)
    (h : euSelectionInvariant s) :
    euSelectionInvariant (toggleExportLocation s c) := by
  have hLeu : euLabel ∉ euMembers := by decide
  have hA : "Austria" ∈ euMembers := by decide
  unfold euSelectionInvariant at h ⊢
  by_cases hcL : c = euLabel
  · subst hcL
    unfold toggleExportLocation
    rw [if_pos rfl]
    by_cases hall : (∀ m ∈ euMembers, m ∈ s) ∧ euLabel ∈ s
    · rw [if_pos hall, foldl_erase_toFinset]
      constructor
      · intro hL
        exact absurd hL (Finset.not_mem_erase _ _)
      · intro hm
        have h1 := hm "Austria" hA
        rw [Finset.mem_erase, Finset.mem_sdiff, List.mem_toFinset] at h1
        exact absurd hA h1.2.2
    · rw [if_neg hall, foldl_insert_toFinset]
      constructor
      · intro _ m hm
        exact Finset.mem_insert_of_mem
          (Finset.mem_union_right _ (List.mem_toFinset.mpr hm))
      · intro _
        exact Finset.mem_insert_self _ _
  · by_cases hcEU : c ∈ euMembers
    · unfold toggleExportLocation
      rw [if_neg hcL, if_pos hcEU]
      by_cases hall2 : ∀ m ∈ euMembers, m ∈ toggleOne s c
      · rw [if_pos hall2]
        constructor
        · intro _ m hm
          exact Finset.mem_insert_of_mem (hall2 m hm)
        · intro _
          exact Finset.mem_insert_self _ _
      · rw [if_neg hall2]
        constructor
        · intro hL
          exact absurd hL (Finset.not_mem_erase _ _)
        · intro hm
          exfalso
          apply hall2
          intro m hmem
          exact (Finset.mem_erase.mp (hm m hmem)).2
    · rw [toggle_nonmember hcL hcEU]
      have hxL : euLabel ∈ toggleOne s c ↔ euLabel ∈ s := by
        have hLc : euLabel ≠ c := Ne.symm hcL
        by_cases hcs : c ∈ s <;>
          simp [toggleOne, hcs, Finset.mem_erase, Finset.mem_insert, hLc]
      have hmem : ∀ m ∈ euMembers, (m ∈ toggleOne s c ↔ m ∈ s) := by
        intro m hm
        have hmc : m ≠ c := fun he => hcEU (he ▸ hm)
        by_cases hcs : c ∈ s <;>
          simp [toggleOne, hcs, Finset.mem_erase, Finset.mem_insert, hmc]
      constructor
      · intro hL m hm
        exact (hmem m hm).mpr (h.mp (hxL.mp hL) m hm)
      · intro hm2
        apply hxL.mpr
        apply h.mpr
        intro m hm
        exact (hmem m hm).mp (hm2 m hm)

/-! ## Claim theorems -/

/-- C1: If every summarization attempt fails with a rate-limit (throttling)
    error, `summarizeMatches` with the default `retries = 2` issues exactly
    3 calls to the /api/bedrock endpoint (1 initial attempt plus 2 retries)
    and then takes the fallback path, recording the busy summary error. -/
theorem summarizeMatches_throttle_three_calls (matchList : List MatchRec)
    (responses : Nat → BedrockResp) (country : Option String)
    (h : ∀ i, IsThrottleHttp (responses i)) :
    (summarizeMatches matchList 2 responses country).calls = 3 ∧
    (summarizeMatches matchList 2 responses country).state.summaryError =
      some "AI analysis temporarily busy. Showing raw results instead." := by
  have hrun := throttleRun_eq responses h
  simp only [summarizeMatches, hrun]
  simp

/-- Witness for C1: three throttling responses in a row produce three calls
    and the busy summary error. -/
theorem summarizeMatches_throttle_three_calls_witness :
    (summarizeMatches [] 2 (fun _ => BedrockResp.httpErr (some "Too many requests"))
        none).calls = 3 ∧
    (summarizeMatches [] 2 (fun _ => BedrockResp.httpErr (some "Too many requests"))
        none).state.summaryError =
      some "AI analysis temporarily busy. Showing raw results instead." :=
  summarizeMatches_throttle_three_calls []
    (fun _ => BedrockResp.httpErr (some "Too many requests")) none
    (fun _ => ⟨"Too many requests", rfl, by decide⟩)

/-- C2 counterexample: an HTTP error whose detail is the literal string
    'THROTTLE' is not classified as a rate-limit error by the throttling
    detector, yet the summarizer retries it (3 calls with the default
    retries = 2), because the retry check compares the thrown message
    against the in-band marker 'THROTTLE'. -/
theorem summarizeMatches_literal_marker_retries :
    isThrottleMsg "THROTTLE" = false ∧
    (summarizeMatches [] 2 (fun _ => BedrockResp.httpErr (some "THROTTLE"))
        none).calls = 3 := by
  constructor
  · decide
  · decide

/-- C2 (amended): if the first attempt fails with an error that is neither
    classified as throttling by the detector nor equal to the literal retry
    marker 'THROTTLE', the summarizer issues exactly 1 call and goes
    directly to the generic failure fallback. -/
theorem summarizeMatches_nonthrottle_one_call (matchList : List MatchRec)
    (responses : Nat → BedrockResp) (country : Option String) (e : String)
    (he : callOutcome responses 0 = .error e)
    (ht : isThrottleMsg e = false) (hne : e ≠ "THROTTLE") :
    (summarizeMatches matchList 2 responses country).calls = 1 ∧
    (summarizeMatches matchList 2 responses country).state.summaryError =
      some ("Analysis failed: " ++ e) := by
  have hrun : attemptSummarization responses 2 (2 + 1) 0 = ⟨.error e, 1, []⟩ :=
    nonthrottleRun_eq responses 2 e he hne
  simp only [summarizeMatches, hrun]
  simp [ht, hne]

/-- Witness for the amended C2: a generic server error makes one call and
    records the failure. -/
theorem summarizeMatches_nonthrottle_one_call_witness :
    (summarizeMatches [] 2 (fun _ => BedrockResp.httpErr (some "boom")) none).calls = 1 ∧
    (summarizeMatches [] 2 (fun _ => BedrockResp.httpErr (some "boom"))
        none).state.summaryError = some ("Analysis failed: " ++ "boom") :=
  summarizeMatches_nonthrottle_one_call [] (fun _ => BedrockResp.httpErr (some "boom"))
    none "boom" rfl (by decide) (by decide)

/-- C3: the j-th backoff wait of any summarizer run is
    min(1000 * 2 ^ j, 8000) milliseconds. -/
theorem summarizeMatches_backoff_waits (matchList : List MatchRec) (retries : Nat)
    (responses : Nat → BedrockResp) (country : Option String) (j : Nat)
    (h : j < (summarizeMatches matchList retries responses country).waits.length) :
    (summarizeMatches matchList retries responses country).waits.get? j =
      some (min (1000 * 2 ^ j) 8000) := by
  rw [summarizeMatches_waits_eq] at h ⊢
  have := attemptSummarization_waits responses retries (retries + 1) 0 j h
  simpa using this

/-- Witness for C3: with throttling responses and retries = 2, the second
    wait is min(1000 * 2 ^ 1, 8000) = 2000 ms. -/
theorem summarizeMatches_backoff_waits_witness :
    1 < (summarizeMatches [] 2 (fun _ => BedrockResp.httpErr (some "rate limit"))
        none).waits.length ∧
    (summarizeMatches [] 2 (fun _ => BedrockResp.httpErr (some "rate limit"))
        none).waits.get? 1 = some (min (1000 * 2 ^ 1) 8000) :=
  ⟨by decide,
   summarizeMatches_backoff_waits [] 2
     (fun _ => BedrockResp.httpErr (some "rate limit")) none 1 (by decide)⟩

/-- C4: a lookup response with an empty match list issues no /api/bedrock
    call, clears the summary and summary error, and renders the no-matches
    state; this holds for the country LookupBox and the basic LookupBox. -/
theorem doLookup_empty_matches_no_summarization (bedrock : Nat → BedrockResp)
    (country : Option String) :
    (doLookup (.ok []) bedrock country).bedrockCalls = 0 ∧
    (doLookup (.ok []) bedrock country).summary = none ∧
    (doLookup (.ok []) bedrock country).summaryError = none ∧
    showsNoMatches (doLookup (.ok []) bedrock country) ∧
    (doLookupBasic (.ok []) bedrock).bedrockCalls = 0 ∧
    (doLookupBasic (.ok []) bedrock).summary = none ∧
    (doLookupBasic (.ok []) bedrock).summaryError = none := by
  simp [doLookup, doLookupBasic, showsNoMatches]

/-- C5 counterexample: in the basic LookupBox variant (ResultsPage.jsx
    lines 116-147), a 404 lookup response sets the error state (rendered as
    an error banner) and leaves results null instead of the empty list. -/
theorem doLookupBasic_404_error_banner :
    (doLookupBasic (.httpErr 404 (some "tariff data not found"))
        fun _ => BedrockResp.ok "").error = some "tariff data not found" ∧
    (doLookupBasic (.httpErr 404 (some "tariff data not found"))
        fun _ => BedrockResp.ok "").results = none ∧
    showsErrorBanner (doLookupBasic (.httpErr 404 (some "tariff data not found"))
        fun _ => BedrockResp.ok "") := by
  refine ⟨rfl, rfl, ?_⟩
  simp [showsErrorBanner, doLookupBasic]

/-- C5 (amended): in the country LookupBox (ResultsPage.jsx lines 565-618),
    every 404 lookup response renders the empty-results / no-data state with
    no error set and no summarization call. -/
theorem doLookup_404_empty_results (detail : Option String)
    (bedrock : Nat → BedrockResp) (country : Option String) :
    (doLookup (.httpErr 404 detail) bedrock country).results = some [] ∧
    (doLookup (.httpErr 404 detail) bedrock country).error = none ∧
    (doLookup (.httpErr 404 detail) bedrock country).bedrockCalls = 0 ∧
    showsNoMatches (doLookup (.httpErr 404 detail) bedrock country) := by
  simp [doLookup, showsNoMatches]

/-- C6 counterexample: from the reachable selection obtained by toggling
    France once (a partial EU selection), toggling 'European Union' twice
    does not return to the prior selection: the first toggle selects the
    whole bloc and the second clears it, losing France. -/
theorem toggleExportLocation_eu_double_toggle_loses_partial :
    toggleExportLocation
        (toggleExportLocation (toggleExportLocation ∅ "France") euLabel) euLabel ≠
      toggleExportLocation ∅ "France" := by
  decide

/-- C6 (amended): for every selection satisfying the umbrella-label
    invariant (which holds for every selection reachable by toggles, by
    euInv_empty and euInv_toggle) and every country other than the umbrella
    label 'European Union', toggling that country twice returns the
    selection to its prior value; double-toggling the umbrella label itself
    instead clears a partial EU selection. -/
theorem toggleExportLocation_double_toggle_identity (s : Finset String)
    (c : String) (hInv : euSelectionInvariant s) (hc : c ≠ euLabel) :
    toggleExportLocation (toggleExportLocation s c) c = s := by
  have hLeu : euLabel ∉ euMembers := by decide
  by_cases hcEU : c ∈ euMembers
  · by_cases hcs : c ∈ s
    · rw [toggle_member_mem hcEU hc hcs]
      have hct1 : c ∉ (s.erase c).erase euLabel := by
        intro h1
        exact (Finset.mem_erase.mp (Finset.mem_erase.mp h1).2).1 rfl
      by_cases hall : ∀ m ∈ euMembers, m ∈ s
      · have hLs : euLabel ∈ s := hInv.mpr hall
        have hall2 : ∀ m ∈ euMembers, m ∈ insert c ((s.erase c).erase euLabel) := by
          intro m hm
          rcases eq_or_ne m c with rfl | hmc
          · exact Finset.mem_insert_self _ _
          · have hmL : m ≠ euLabel := fun he => hLeu (he ▸ hm)
            exact Finset.mem_insert_of_mem
              (Finset.mem_erase.mpr ⟨hmL, Finset.mem_erase.mpr ⟨hmc, hall m hm⟩⟩)
        rw [toggle_member_notmem_all hcEU hc hct1 hall2]
        ext x
        simp only [Finset.mem_insert, Finset.mem_erase]
        have e1 : x = euLabel → x ∈ s := fun he => he ▸ hLs
        have e2 : x = c → x ∈ s := fun he => he ▸ hcs
        tauto
      · have hLs : euLabel ∉ s := fun hL => hall (hInv.mp hL)
        have hall2 : ¬ ∀ m ∈ euMembers, m ∈ insert c ((s.erase c).erase euLabel) := by
          intro h2
          apply hall
          intro m hm
          rcases eq_or_ne m c with rfl | hmc
          · exact hcs
          · rcases Finset.mem_insert.mp (h2 m hm) with he | ht
            · exact absurd he hmc
            · exact (Finset.mem_erase.mp (Finset.mem_erase.mp ht).2).2
        rw [toggle_member_notmem_nall hcEU hc hct1 hall2]
        ext x
        simp only [Finset.mem_insert, Finset.mem_erase]
        have e2 : x = c → x ∈ s := fun he => he ▸ hcs
        have e3 : x ∈ s → x ≠ euLabel := fun hx he => hLs (he ▸ hx)
        tauto
    · by_cases hall1 : ∀ m ∈ euMembers, m ∈ insert c s
      · rw [toggle_member_notmem_all hcEU hc hcs hall1]
        have hct1 : c ∈ insert euLabel (insert c s) :=
          Finset.mem_insert_of_mem (Finset.mem_insert_self _ _)
        rw [toggle_member_mem hcEU hc hct1]
        have hLs : euLabel ∉ s := fun hL => hcs (hInv.mp hL c hcEU)
        ext x
        simp only [Finset.mem_insert, Finset.mem_erase]
        have e1 : x ∈ s → x ≠ euLabel := fun hx he => hLs (he ▸ hx)
        have e2 : x ∈ s → x ≠ c := fun hx he => hcs (he ▸ hx)
        tauto
      · rw [toggle_member_notmem_nall hcEU hc hcs hall1]
        have hct1 : c ∈ (insert c s).erase euLabel :=
          Finset.mem_erase.mpr ⟨hc, Finset.mem_insert_self _ _⟩
        rw [toggle_member_mem hcEU hc hct1]
        have hLs : euLabel ∉ s := by
          intro hL
          apply hall1
          intro m hm
          exact Finset.mem_insert_of_mem (hInv.mp hL m hm)
        ext x
        simp only [Finset.mem_insert, Finset.mem_erase]
        have e1 : x ∈ s → x ≠ euLabel := fun hx he => hLs (he ▸ hx)
        have e2 : x ∈ s → x ≠ c := fun hx he => hcs (he ▸ hx)
        tauto
  · rw [toggle_nonmember hc hcEU, toggle_nonmember hc hcEU]
    by_cases hcs : c ∈ s
    · have h1 : toggleOne s c = s.erase c := by simp [toggleOne, hcs]
      rw [h1]
      have h2 : toggleOne (s.erase c) c = insert c (s.erase c) := by
        simp [toggleOne, Finset.not_mem_erase]
      rw [h2, Finset.insert_erase hcs]
    · have h1 : toggleOne s c = insert c s := by simp [toggleOne, hcs]
      rw [h1]
      have h2 : toggleOne (insert c s) c = (insert c s).erase c := by
        simp [toggleOne, Finset.mem_insert_self]
      rw [h2, Finset.erase_insert hcs]

/-- Witness for the amended C6: from the reachable selection containing
    exactly France, double-toggling Germany returns to it. -/
theorem toggleExportLocation_double_toggle_identity_witness :
    euSelectionInvariant {"France"} ∧ "Germany" ≠ euLabel ∧
    toggleExportLocation (toggleExportLocation {"France"} "Germany") "Germany" =
      {"France"} :=
  ⟨by unfold euSelectionInvariant; decide, by decide,
   toggleExportLocation_double_toggle_identity {"France"} "Germany"
     (by unfold euSelectionInvariant; decide) (by decide)⟩

/-- C7: starting from any selection satisfying the umbrella-label invariant
    (every selection reachable by toggles does), after any
    toggleExportLocation call that leaves every EU member selected the
    umbrella label 'European Union' is selected, and after any call that
    leaves at least one EU member unselected the umbrella label is not
    selected. -/
theorem toggleExportLocation_umbrella_label_sync (s : Finset String)
    (c : String) (hInv : euSelectionInvariant s) :
    ((∀ m ∈ euMembers, m ∈ toggleExportLocation s c) →
      euLabel ∈ toggleExportLocation s c) ∧
    ((∃ m ∈ euMembers, m ∉ toggleExportLocation s c) →
      euLabel ∉ toggleExportLocation s c) := by
  have h := euInv_toggle c hInv
  exact ⟨fun hall => h.mpr hall,
         fun ⟨m, hm, hmt⟩ hL => hmt (h.mp hL m hm)⟩

/-- Witness for C7: from the reachable selection containing exactly France,
    toggling France off leaves Austria unselected, hence no umbrella label. -/
theorem toggleExportLocation_umbrella_label_sync_witness :
    euLabel ∉ toggleExportLocation {"France"} "France" :=
  (toggleExportLocation_umbrella_label_sync {"France"} "France"
      (by unfold euSelectionInvariant; decide)).2
    ⟨"Austria", by decide, by decide⟩

/-- C8 counterexample: when the summarizer gives up on a non-rate-limit
    error, the fallback summary is the generic record-count message and is
    not built by extracting field names from matches[0].record: two inputs
    that differ exactly in the extractable fields of the top record produce
    the same fallback summary. -/
theorem summarizeMatches_generic_fallback_ignores_record :
    (summarizeMatches [⟨some (.obj [("rate", .str "5%")])⟩] 2
        (fun _ => BedrockResp.httpErr (some "Internal error")) none).state.summary =
      some "Found 1 relevant tariff record(s) for your product. Review the detailed data below for specific rates and requirements." ∧
    (summarizeMatches [⟨some (.obj [("note", .str "irrelevant")])⟩] 2
        (fun _ => BedrockResp.httpErr (some "Internal error")) none).state.summary =
      (summarizeMatches [⟨some (.obj [("rate", .str "5%")])⟩] 2
        (fun _ => BedrockResp.httpErr (some "Internal error")) none).state.summary ∧
    relevantData [("rate", RecVal.str "5%")] ≠
      relevantData [("note", RecVal.str "irrelevant")] := by
  refine ⟨?_, ?_, ?_⟩ <;> decide

/-- C8 (amended): when the summarizer gives up after rate-limit retry
    exhaustion, the fallback summary is the deterministic extraction of
    known field names from matches[0].record; when it gives up on an error
    that is neither classified as throttling nor the literal marker, the
    fallback summary is the generic record-count message. -/
theorem summarizeMatches_fallback_paths (matchList : List MatchRec)
    (responses : Nat → BedrockResp) (country : Option String) :
    ((∀ i, IsThrottleHttp (responses i)) →
      (summarizeMatches matchList 2 responses country).state.summary =
        manualThrottleSummary matchList country) ∧
    (∀ e, callOutcome responses 0 = .error e → isThrottleMsg e = false →
      e ≠ "THROTTLE" →
      (summarizeMatches matchList 2 responses country).state.summary =
        basicFallbackSummary matchList country) := by
  constructor
  · intro h
    have hrun := throttleRun_eq responses h
    simp only [summarizeMatches, hrun]
    simp
  · intro e he ht hne
    have hrun : attemptSummarization responses 2 (2 + 1) 0 = ⟨.error e, 1, []⟩ :=
      nonthrottleRun_eq responses 2 e he hne
    simp only [summarizeMatches, hrun]
    simp [ht, hne]

/-- Witness for the amended C8: on throttling give-up the summary is the
    manual extraction; on a generic error it is the record-count message. -/
theorem summarizeMatches_fallback_paths_witness :
    (summarizeMatches [⟨some (.obj [("rate", .str "5%")])⟩] 2
        (fun _ => BedrockResp.httpErr (some "rate limit")) none).state.summary =
      manualThrottleSummary [⟨some (.obj [("rate", .str "5%")])⟩] none ∧
    (summarizeMatches [⟨some (.obj [("rate", .str "5%")])⟩] 2
        (fun _ => BedrockResp.httpErr (some "boom")) none).state.summary =
      basicFallbackSummary [⟨some (.obj [("rate", .str "5%")])⟩] none :=
  ⟨(summarizeMatches_fallback_paths [⟨some (.obj [("rate", .str "5%")])⟩]
      (fun _ => BedrockResp.httpErr (some "rate limit")) none).1
    (fun _ => ⟨"rate limit", rfl, by decide⟩),
   (summarizeMatches_fallback_paths [⟨some (.obj [("rate", .str "5%")])⟩]
      (fun _ => BedrockResp.httpErr (some "boom")) none).2
    "boom" rfl (by decide) (by decide)⟩

/-- C9: every summarizer invocation reaches an unambiguous terminal state:
    the loading flag ends false, and either the success summary or the
    error state is set. -/
theorem summarizeMatches_terminal_state (matchList : List MatchRec)
    (retries : Nat) (responses : Nat → BedrockResp) (country : Option String) :
    (summarizeMatches matchList retries responses country).state.summaryLoading =
      false ∧
    ((summarizeMatches matchList retries responses country).state.summary.isSome ∨
     (summarizeMatches matchList retries responses country).state.summaryError.isSome) := by
  simp only [summarizeMatches]
  split
  · simp
  · split <;> simp

/-- C10 counterexample: the unknown string 'toString' is not present in the
    country-to-code mapping, yet the property read hits the truthy function
    inherited from Object.prototype, the || 'US' fallback does not fire, and
    the returned path is not the United States data path. -/
theorem getCountryKeyPath_prototype_name_not_us :
    countryCodeMap.lookup "toString" = none ∧
    (countryCodeMapAccess "toString").isSome = true ∧
    getCountryKeyPath "toString" ≠ "trade-data/normal/US/Oct15.2025.jsonl" := by
  refine ⟨?_, ?_, ?_⟩ <;> decide

/-- C10 (amended): a country name whose property read is undefined (neither
    an own key of the country-to-code mapping nor a name inherited from
    Object.prototype) resolves to the United States data path; an unmapped
    name colliding with an inherited Object.prototype member instead yields
    a path built from the stringified inherited value, not the US path. -/
theorem getCountryKeyPath_unmapped_resolution (country : String) :
    (countryCodeMapAccess country = none →
      getCountryKeyPath country = "trade-data/normal/US/Oct15.2025.jsonl") ∧
    (country ∈ objectProtoNames →
      getCountryKeyPath country ≠ "trade-data/normal/US/Oct15.2025.jsonl") := by
  constructor
  · intro h
    unfold getCountryKeyPath
    rw [h]
    rfl
  · intro h
    have hall : ∀ c ∈ objectProtoNames,
        getCountryKeyPath c ≠ "trade-data/normal/US/Oct15.2025.jsonl" := by
      decide
    exact hall country h

/-- Witness for the amended C10: Canada reads as undefined and resolves to
    the US data path, while the inherited name 'valueOf' does not. -/
theorem getCountryKeyPath_unmapped_resolution_witness :
    getCountryKeyPath "Canada" = "trade-data/normal/US/Oct15.2025.jsonl" ∧
    getCountryKeyPath "valueOf" ≠ "trade-data/normal/US/Oct15.2025.jsonl" :=
  ⟨(getCountryKeyPath_unmapped_resolution "Canada").1 (by decide),
   (getCountryKeyPath_unmapped_resolution "valueOf").2 (by decide)⟩
